import Mathlib

/-!
Verification development for the marketing-performance query core:
a shallow embedding of the dataset loader (schema validation, type coercion,
derived metrics, deterministic row identity) and of the query engine
(time-range slicing, equality filters, aggregate / top-n / trend execution),
together with theorems settling the specification claims.

Machine floats of the source are modelled as exact rationals (ℚ); pandas
frames are modelled as Lean lists of row structures; operations that raise
in the source return `Except.error`.
-/

set_option maxHeartbeats 1000000
set_option maxRecDepth 4000

/-! ## Generic list utilities

`dedupKeep` models the deduplication performed by a Python dict comprehension
and by pandas group-key collection: first occurrences are kept, in order.
`insertLe` / `isortLe` is an executable insertion sort used as the concrete
sort behind `DataFrame.sort_values` and the sorted group keys of
`DataFrame.groupby`. Pandas guarantees the order of the sort keys but, for a
single-column `sort_values` with the default `kind='quicksort'`, not the
relative order of ties; theorems about a single-column sort therefore assert
only properties every comparison sort satisfies (a sorted permutation,
truncated) and never this implementation's tie order. For multi-column
sorts (`np.lexsort`) pandas is stable, matching this model.
`lexLe` is lexicographic comparison of equal-length key lists.
`maxInt?` models `Series.max()` (`none` on an empty column, where the
source's `int(...)` conversion raises).
-/

def dedupKeep [DecidableEq α] : List α → List α
  | [] => []
  | x :: xs => x :: (dedupKeep xs).filter (fun y => y ≠ x)

theorem mem_dedupKeep [DecidableEq α] {x : α} {l : List α} :
    x ∈ dedupKeep l ↔ x ∈ l := by
  induction l with
  | nil => simp [dedupKeep]
  | cons a as ih =>
    by_cases hx : x = a
    · subst hx; simp [dedupKeep]
    · simp [dedupKeep, hx, List.mem_filter, ih]

theorem nodup_dedupKeep [DecidableEq α] (l : List α) : (dedupKeep l).Nodup := by
  induction l with
  | nil => simp [dedupKeep]
  | cons a as ih =>
    refine List.Nodup.cons ?_ (ih.filter _)
    intro hmem
    have := List.of_mem_filter hmem
    simp at this

def maxInt? : List Int → Option Int
  | [] => none
  | x :: xs => some ((maxInt? xs).elim x (fun m => max x m))

theorem maxInt?_isSome {l : List Int} (h : l ≠ []) : ∃ m, maxInt? l = some m := by
  cases l with
  | nil => exact absurd rfl h
  | cons x xs => exact ⟨_, rfl⟩

theorem maxInt?_mem : ∀ {l : List Int} {m : Int}, maxInt? l = some m → m ∈ l := by
  intro l
  induction l with
  | nil => intro m h; simp [maxInt?] at h
  | cons x xs ih =>
    intro m h
    simp only [maxInt?, Option.some.injEq] at h
    cases hxs : maxInt? xs with
    | none => rw [hxs] at h; simp at h; simp [h]
    | some k =>
      rw [hxs] at h
      simp only [Option.elim] at h
      rcases max_choice x k with hc | hc
      · rw [hc] at h; simp [h]
      · rw [hc] at h; subst h; exact List.mem_cons_of_mem _ (ih hxs)

theorem maxInt?_le : ∀ {l : List Int} {m : Int}, maxInt? l = some m → ∀ x ∈ l, x ≤ m := by
  intro l
  induction l with
  | nil => intro m h; simp [maxInt?] at h
  | cons a as ih =>
    intro m h x hx
    simp only [maxInt?, Option.some.injEq] at h
    cases has : maxInt? as with
    | none =>
      rw [has] at h; simp at h
      cases as with
      | nil =>
        rcases List.mem_singleton.mp hx with rfl
        exact le_of_eq h
      | cons b bs => simp [maxInt?] at has
    | some k =>
      rw [has] at h
      simp only [Option.elim] at h
      subst h
      rcases List.mem_cons.mp hx with rfl | hx'
      · exact le_max_left _ _
      · exact le_trans (ih has x hx') (le_max_right _ _)

/-! ### Stable insertion sort -/

def insertLe (le : α → α → Bool) (x : α) : List α → List α
  | [] => [x]
  | y :: ys => if le y x && !le x y then y :: insertLe le x ys else x :: y :: ys

def isortLe (le : α → α → Bool) : List α → List α
  | [] => []
  | x :: xs => insertLe le x (isortLe le xs)

theorem insertLe_perm (le : α → α → Bool) (x : α) :
    ∀ l : List α, List.Perm (insertLe le x l) (x :: l) := by
  intro l
  induction l with
  | nil => simp [insertLe]
  | cons y ys ih =>
    by_cases hc : (le y x && !le x y) = true
    · simp only [insertLe, hc, if_pos]
      exact (ih.cons y).trans (List.Perm.swap x y ys)
    · simp only [insertLe, hc, if_neg]
      exact List.Perm.refl _

theorem isortLe_perm (le : α → α → Bool) : ∀ l : List α, List.Perm (isortLe le l) l := by
  intro l
  induction l with
  | nil => simp [isortLe]
  | cons x xs ih =>
    exact (insertLe_perm le x (isortLe le xs)).trans (ih.cons x)

theorem insertLe_pairwise (le : α → α → Bool)
    (htrans : ∀ a b c, le a b = true → le b c = true → le a c = true)
    (htotal : ∀ a b, le a b = true ∨ le b a = true)
    (x : α) : ∀ {l : List α}, List.Pairwise (fun a b => le a b = true) l →
      List.Pairwise (fun a b => le a b = true) (insertLe le x l) := by
  intro l
  induction l with
  | nil => intro _; simp [insertLe]
  | cons y ys ih =>
    intro h
    rcases List.pairwise_cons.mp h with ⟨hy, hys⟩
    by_cases hc : (le y x && !le x y) = true
    · simp only [insertLe, hc, if_pos]
      have hyx : le y x = true := by
        rw [Bool.and_eq_true] at hc
        exact hc.1
      refine List.pairwise_cons.mpr ⟨?_, ih hys⟩
      intro z hz
      have hz' := (insertLe_perm le x ys).mem_iff.mp hz
      rcases List.mem_cons.mp hz' with rfl | hzys
      · exact hyx
      · exact hy z hzys
    · simp only [insertLe, hc, if_neg]
      have hxy : le x y = true := by
        by_cases hxy' : le x y = true
        · exact hxy'
        · exfalso
          rcases htotal x y with h2 | h2
          · exact hxy' h2
          · apply hc
            have hfalse : le x y = false := by simpa using hxy'
            simp [h2, hfalse]
      refine List.pairwise_cons.mpr ⟨?_, h⟩
      intro z hz
      rcases List.mem_cons.mp hz with rfl | hzys
      · exact hxy
      · exact htrans x y z hxy (hy z hzys)

theorem isortLe_pairwise (le : α → α → Bool)
    (htrans : ∀ a b c, le a b = true → le b c = true → le a c = true)
    (htotal : ∀ a b, le a b = true ∨ le b a = true) :
    ∀ l : List α, List.Pairwise (fun a b => le a b = true) (isortLe le l) := by
  intro l
  induction l with
  | nil => simp [isortLe]
  | cons x xs ih => exact insertLe_pairwise le htrans htotal x ih

/-! ### Lexicographic comparison of key lists -/

def lexLe (le : α → α → Bool) : List α → List α → Bool
  | [], _ => true
  | _ :: _, [] => false
  | a :: as, b :: bs =>
    if le a b then (if le b a then lexLe le as bs else true) else false

theorem lexLe_total (le : α → α → Bool)
    (htotal : ∀ a b, le a b = true ∨ le b a = true) :
    ∀ as bs : List α, lexLe le as bs = true ∨ lexLe le bs as = true := by
  intro as
  induction as with
  | nil => intro bs; left; simp [lexLe]
  | cons a as ih =>
    intro bs
    cases bs with
    | nil => right; simp [lexLe]
    | cons b bs =>
      by_cases hab : le a b = true
      · by_cases hba : le b a = true
        · rcases ih bs with h | h
          · left; simp [lexLe, hab, hba, h]
          · right; simp [lexLe, hab, hba, h]
        · left; simp [lexLe, hab, hba]
      · rcases htotal a b with h | h
        · exact absurd h hab
        · right
          simp only [lexLe, h, if_pos]
          simp [hab]

theorem lexLe_trans (le : α → α → Bool)
    (htrans : ∀ a b c, le a b = true → le b c = true → le a c = true) :
    ∀ as bs cs : List α, lexLe le as bs = true → lexLe le bs cs = true →
      lexLe le as cs = true := by
  intro as
  induction as with
  | nil => intro bs cs _ _; simp [lexLe]
  | cons a as ih =>
    intro bs cs h1 h2
    cases bs with
    | nil => simp [lexLe] at h1
    | cons b bs =>
      cases cs with
      | nil => simp [lexLe] at h2
      | cons c cs =>
        simp only [lexLe] at h1 h2 ⊢
        by_cases hab : le a b = true
        · by_cases hbc : le b c = true
          · have hac : le a c = true := htrans a b c hab hbc
            simp only [hac, if_pos]
            by_cases hca : le c a = true
            · have hcb : le c b = true := htrans c a b hca hab
              have hba : le b a = true := htrans b c a hbc hca
              simp only [hab, hba, if_pos] at h1
              simp only [hbc, hcb, if_pos] at h2
              simp [ih bs cs h1 h2]
            · simp [hca]
          · simp only [hab, if_pos] at h1
            simp only [hbc, if_neg] at h2
            simp at h2
        · simp only [hab, if_neg] at h1
          simp at h1

/-! ## Cell values

`Value` models a pandas cell as used by the engine: integer-valued and
fractional numerics (the source stores both as float64; exact rationals
here), strings, timestamps, and the missing value `NaN`/`NaT` (`null`).
`pyEq` is Python/pandas elementwise `==`: `NaN` compares unequal to
everything (including itself) and values of unrelated kinds compare
unequal, while int- and float-valued numerics compare numerically.
`Value.le` is the ascending sort order used by `sort_values` and by the
sorted group keys of `groupby`: numeric and string columns sort naturally
and missing values are placed last.
-/

structure PyDate where
  y : Nat
  m : Nat
  d : Nat
deriving DecidableEq

inductive Value where
  | int (i : Int)
  | rat (q : ℚ)
  | str (s : String)
  | date (d : PyDate)
  | null
deriving DecidableEq

def Value.rank : Value → Nat
  | .int _ => 0
  | .rat _ => 0
  | .str _ => 1
  | .date _ => 2
  | .null => 3

def charLe (a b : Char) : Bool := decide (a ≤ b)

def natLeB (a b : Nat) : Bool := decide (a ≤ b)

theorem charLe_total : ∀ a b : Char, charLe a b = true ∨ charLe b a = true := by
  intro a b
  simp only [charLe, decide_eq_true_eq]
  exact le_total a b

theorem charLe_trans : ∀ a b c : Char,
    charLe a b = true → charLe b c = true → charLe a c = true := by
  intro a b c h1 h2
  simp only [charLe, decide_eq_true_eq] at h1 h2 ⊢
  exact le_trans h1 h2

theorem natLeB_total : ∀ a b : Nat, natLeB a b = true ∨ natLeB b a = true := by
  intro a b
  simp only [natLeB, decide_eq_true_eq]
  omega

theorem natLeB_trans : ∀ a b c : Nat,
    natLeB a b = true → natLeB b c = true → natLeB a c = true := by
  intro a b c h1 h2
  simp only [natLeB, decide_eq_true_eq] at h1 h2 ⊢
  omega

def pyEq (a b : Value) : Bool :=
  match a, b with
  | .int x, .int y => decide (x = y)
  | .int x, .rat y => decide ((x : ℚ) = y)
  | .rat x, .int y => decide (x = (y : ℚ))
  | .rat x, .rat y => decide (x = y)
  | .str s, .str t => decide (s = t)
  | .date d, .date e => decide (d = e)
  | _, _ => false

def Value.le (a b : Value) : Bool :=
  match a, b with
  | .int x, .int y => decide ((x : ℚ) ≤ (y : ℚ))
  | .int x, .rat y => decide ((x : ℚ) ≤ y)
  | .rat x, .int y => decide (x ≤ (y : ℚ))
  | .rat x, .rat y => decide (x ≤ y)
  | .str s, .str t => lexLe charLe s.data t.data
  | .date d, .date e => lexLe natLeB [d.y, d.m, d.d] [e.y, e.m, e.d]
  | .int _, .str _ => true
  | .int _, .date _ => true
  | .int _, .null => true
  | .rat _, .str _ => true
  | .rat _, .date _ => true
  | .rat _, .null => true
  | .str _, .int _ => false
  | .str _, .rat _ => false
  | .str _, .date _ => true
  | .str _, .null => true
  | .date _, .int _ => false
  | .date _, .rat _ => false
  | .date _, .str _ => false
  | .date _, .null => true
  | .null, .int _ => false
  | .null, .rat _ => false
  | .null, .str _ => false
  | .null, .date _ => false
  | .null, .null => true

theorem valueLe_total : ∀ a b : Value, Value.le a b = true ∨ Value.le b a = true := by
  intro a b
  cases a <;> cases b <;>
    simp only [Value.le, decide_eq_true_eq] <;>
    first
      | exact Or.inl trivial
      | exact Or.inr trivial
      | exact le_total _ _
      | exact lexLe_total charLe charLe_total _ _
      | exact lexLe_total natLeB natLeB_total _ _

theorem valueLe_trans : ∀ a b c : Value,
    Value.le a b = true → Value.le b c = true → Value.le a c = true := by
  intro a b c h1 h2
  cases a <;> cases b <;> cases c <;>
    simp only [Value.le, decide_eq_true_eq] at h1 h2 ⊢ <;>
    first
      | trivial
      | exact (Bool.false_ne_true h1).elim
      | exact (Bool.false_ne_true h2).elim
      | exact le_trans h1 h2
      | exact lexLe_trans charLe charLe_trans _ _ _ h1 h2
      | exact lexLe_trans natLeB natLeB_trans _ _ _ h1 h2

/-! ## SHA-256

Executable model of `hashlib.sha256(key.encode("utf-8")).hexdigest()`:
UTF-8 encoding, FIPS 180-4 padding, 64-round compression on 32-bit words
(naturals reduced modulo `2^32`), and lowercase hex rendering.
-/

def u32 (n : Nat) : Nat := n % 4294967296

def rotr32 (x n : Nat) : Nat := u32 (x / 2 ^ n + x % 2 ^ n * 2 ^ (32 - n))

def utf8Bytes (c : Char) : List Nat :=
  let n := c.toNat
  if n < 128 then [n]
  else if n < 2048 then [192 + n / 64, 128 + n % 64]
  else if n < 65536 then [224 + n / 4096, 128 + n / 64 % 64, 128 + n % 64]
  else [240 + n / 262144, 128 + n / 4096 % 64, 128 + n / 64 % 64, 128 + n % 64]

def strBytes (s : String) : List Nat :=
  s.data.foldr (fun c acc => utf8Bytes c ++ acc) []

def beBytes : Nat → Nat → List Nat
  | 0, _ => []
  | k + 1, n => beBytes k (n / 256) ++ [n % 256]

def sha256Pad (msg : List Nat) : List Nat :=
  msg ++ [128] ++ List.replicate ((119 - msg.length % 64) % 64) 0 ++ beBytes 8 (msg.length * 8)

def bytesToWords : List Nat → List Nat
  | b1 :: b2 :: b3 :: b4 :: rest =>
    (((b1 * 256 + b2) * 256 + b3) * 256 + b4) :: bytesToWords rest
  | _ => []

def chunk16 (ws : List Nat) : List (List Nat) :=
  match ws with
  | [] => []
  | w :: rest => ((w :: rest).take 16) :: chunk16 (rest.drop 15)
termination_by ws.length
decreasing_by
  simp only [List.length_drop, List.length_cons]
  omega

def smallS0 (x : Nat) : Nat := rotr32 x 7 ^^^ rotr32 x 18 ^^^ x / 2 ^ 3

def smallS1 (x : Nat) : Nat := rotr32 x 17 ^^^ rotr32 x 19 ^^^ x / 2 ^ 10

def bigS0 (x : Nat) : Nat := rotr32 x 2 ^^^ rotr32 x 13 ^^^ rotr32 x 22

def bigS1 (x : Nat) : Nat := rotr32 x 6 ^^^ rotr32 x 11 ^^^ rotr32 x 25

def extendW (acc : List Nat) : Nat → List Nat
  | 0 => acc
  | n + 1 =>
    let i := acc.length
    let w := u32 (smallS1 (acc.getD (i - 2) 0) + acc.getD (i - 7) 0 +
      smallS0 (acc.getD (i - 15) 0) + acc.getD (i - 16) 0)
    extendW (acc ++ [w]) n

structure H8 where
  a : Nat
  b : Nat
  c : Nat
  d : Nat
  e : Nat
  f : Nat
  g : Nat
  h : Nat

def shaK : List Nat :=
  [1116352408, 1899447441, 3049323471, 3921009573,
   961987163, 1508970993, 2453635748, 2870763221,
   3624381080, 310598401, 607225278, 1426881987,
   1925078388, 2162078206, 2614888103, 3248222580,
   3835390401, 4022224774, 264347078, 604807628,
   770255983, 1249150122, 1555081692, 1996064986,
   2554220882, 2821834349, 2952996808, 3210313671,
   3336571891, 3584528711, 113926993, 338241895,
   666307205, 773529912, 1294757372, 1396182291,
   1695183700, 1986661051, 2177026350, 2456956037,
   2730485921, 2820302411, 3259730800, 3345764771,
   3516065817, 3600352804, 4094571909, 275423344,
   430227734, 506948616, 659060556, 883997877,
   958139571, 1322822218, 1537002063, 1747873779,
   1955562222, 2024104815, 2227730452, 2361852424,
   2428436474, 2756734187, 3204031479, 3329325298]

def shaH0 : H8 :=
  { a := 1779033703, b := 3144134277, c := 1013904242, d := 2773480762,
    e := 1359893119, f := 2600822924, g := 528734635, h := 1541459225 }

def shaRound (st : H8) (kw : Nat × Nat) : H8 :=
  let ch := (st.e &&& st.f) ^^^ ((st.e ^^^ 4294967295) &&& st.g)
  let maj := (st.a &&& st.b) ^^^ (st.a &&& st.c) ^^^ (st.b &&& st.c)
  let t1 := u32 (st.h + bigS1 st.e + ch + kw.2 + kw.1)
  let t2 := u32 (bigS0 st.a + maj)
  { a := u32 (t1 + t2), b := st.a, c := st.b, d := st.c,
    e := u32 (st.d + t1), f := st.e, g := st.f, h := st.g }

def processBlock (st : H8) (block : List Nat) : H8 :=
  let w := extendW block 48
  let r := (w.zip shaK).foldl shaRound st
  { a := u32 (st.a + r.a), b := u32 (st.b + r.b), c := u32 (st.c + r.c),
    d := u32 (st.d + r.d), e := u32 (st.e + r.e), f := u32 (st.f + r.f),
    g := u32 (st.g + r.g), h := u32 (st.h + r.h) }

def hexDigit (n : Nat) : Char :=
  if n < 10 then Char.ofNat (48 + n) else Char.ofNat (87 + n)

def hex8 (w : Nat) : List Char :=
  [hexDigit (w / 16 ^ 7 % 16), hexDigit (w / 16 ^ 6 % 16), hexDigit (w / 16 ^ 5 % 16),
   hexDigit (w / 16 ^ 4 % 16), hexDigit (w / 16 ^ 3 % 16), hexDigit (w / 16 ^ 2 % 16),
   hexDigit (w / 16 % 16), hexDigit (w % 16)]

def sha256Hex (s : String) : String :=
  let st := (chunk16 (bytesToWords (sha256Pad (strBytes s)))).foldl processBlock shaH0
  String.mk (([st.a, st.b, st.c, st.d, st.e, st.f, st.g, st.h].map hex8).flatten)

/-! ## Schema registry (src/data/schema.py) -/

def RAW_COLUMNS : List String :=
  ["Year", "Quarter", "Month", "Week", "Date", "Country",
   "Media Category", "Media Name", "Communication",
   "Campaign Category", "Product", "Campaign Name", "Revenue", "Cost"]

def NUMERIC_COLUMNS : List String := ["year", "quarter", "month", "week", "revenue", "cost"]

def DATE_COLUMN : String := "date"

def DIMENSIONS : List String :=
  ["year", "quarter", "month", "week",
   "country", "media_category", "media_name",
   "communication", "campaign_category",
   "product", "campaign_name"]

def ROW_ID_HASH_COLUMNS : List String :=
  ["year", "quarter", "month", "week", "date",
   "country", "media_category", "media_name",
   "communication", "campaign_category", "product", "campaign_name",
   "revenue", "cost"]

/-! ## Query-plan literal sets (src/engine/query_plan.py)

The pydantic model validates plan fields against `Literal` types at
construction; these lists transcribe those literals. `IntentStrs` is the
`Intent` literal, `MetricStrs` the `Metric` literal, `FilterFieldStrs` the
`FilterField` literal and `GroupByFieldStrs` the `GroupByField` literal.
-/

def IntentStrs : List String := ["aggregate", "top_n", "trend", "unknown"]

def MetricStrs : List String := ["revenue", "cost", "profit"]

def FilterFieldStrs : List String :=
  ["year", "quarter", "month", "week",
   "country", "media_category", "media_name",
   "communication", "campaign_category",
   "product", "campaign_name"]

def GroupByFieldStrs : List String :=
  ["year", "quarter", "month", "week",
   "country", "media_category", "media_name",
   "product", "campaign_name"]

/-- Pydantic acceptance of the `groupby` field: every entry must be one of
the `GroupByField` literals, otherwise construction fails validation. -/
def groupbyAccepted (gs : List String) : Bool := gs.all (fun g => GroupByFieldStrs.contains g)

/-- Pydantic acceptance of the `filters[*].field` values: every filter field
must be one of the `FilterField` literals. -/
def filterFieldsAccepted (fs : List String) : Bool := fs.all (fun f => FilterFieldStrs.contains f)

/-! ## Dataset loader (src/data/loader.py)

A `RawCell` is a post-CSV-parse cell: numeric, text, or missing.
`toNumeric` models `pd.to_numeric(..., errors="coerce")` (text parsed as a
signed decimal numeral, otherwise `NaN`); `astypeStr` models `.astype(str)`;
`extractQPat` / `extractMPat` model `.str.extract` with the source regexes
(first `Q` followed by optional whitespace and a digit `1`-`4`; first `M`
followed by optional whitespace and one or two digits, greedily).
The raw `Date` column is represented by its `pd.to_datetime(errors="coerce")`
result: `none` is `NaT` (an unparseable date), `some d` a valid timestamp.
-/

inductive RawCell where
  | num (q : ℚ)
  | txt (s : String)
  | na
deriving DecidableEq

def digitsToNat (cs : List Char) : Nat := cs.foldl (fun acc c => acc * 10 + (c.toNat - 48)) 0

def parseUnsigned (cs : List Char) : Option ℚ :=
  let ip := cs.takeWhile Char.isDigit
  let rest := cs.dropWhile Char.isDigit
  match rest with
  | [] => if ip.isEmpty then none else some ((digitsToNat ip : ℚ))
  | '.' :: fp =>
    if fp.all Char.isDigit && !(ip.isEmpty && fp.isEmpty) then
      some ((digitsToNat ip : ℚ) + (digitsToNat fp : ℚ) / (10 : ℚ) ^ fp.length)
    else none
  | _ => none

def strToNum (s : String) : Option ℚ :=
  match s.trim.data with
  | '-' :: rest => (parseUnsigned rest).map (fun q => -q)
  | '+' :: rest => parseUnsigned rest
  | rest => parseUnsigned rest

/-- Decimal rendering of a float value as Python formats it, for
decimal-representable rationals: an integral value prints with a trailing
`.0`, otherwise the integer part is followed by up to ten fractional digits
with trailing zeros removed. -/
def ratPyStr (q : ℚ) : String :=
  if q.den = 1 then toString q.num ++ ".0"
  else
    let sgn := if q < 0 then "-" else ""
    let a := |q|
    let frac10 : Nat → ℚ → List Nat := fun n fr =>
      (List.range n).foldl (fun st _ =>
        let t := (st.2 * 10 : ℚ)
        (st.1 ++ [(t.floor).toNat], t - (t.floor : ℚ))) (([] : List Nat), fr) |>.1
    let ds := (frac10 10 (a - (a.floor : ℚ))).reverse.dropWhile (fun d => d = 0) |>.reverse
    sgn ++ toString a.floor ++ "." ++ String.mk (ds.map (fun d => Char.ofNat (48 + d)))

def astypeStr : RawCell → String
  | .num q => ratPyStr q
  | .txt s => s
  | .na => "nan"

def toNumeric : RawCell → Option ℚ
  | .num q => some q
  | .txt s => strToNum s
  | .na => none

def qAfterSpaces : List Char → Option Nat
  | [] => none
  | c :: rest =>
    if c.isWhitespace then qAfterSpaces rest
    else if '1' ≤ c && c ≤ '4' then some (c.toNat - 48) else none

def extractQPat : List Char → Option Nat
  | [] => none
  | c :: rest =>
    if c = 'Q' then
      match qAfterSpaces rest with
      | some n => some n
      | none => extractQPat rest
    else extractQPat rest

def mAfterSpaces : List Char → Option Nat
  | [] => none
  | c :: rest =>
    if c.isWhitespace then mAfterSpaces rest
    else if c.isDigit then
      match rest with
      | c2 :: _ =>
        if c2.isDigit then some ((c.toNat - 48) * 10 + (c2.toNat - 48))
        else some (c.toNat - 48)
      | [] => some (c.toNat - 48)
    else none

def extractMPat : List Char → Option Nat
  | [] => none
  | c :: rest =>
    if c = 'M' then
      match mAfterSpaces rest with
      | some n => some n
      | none => extractMPat rest
    else extractMPat rest

structure RawRow where
  year : RawCell := .na
  quarter : RawCell := .na
  month : RawCell := .na
  week : RawCell := .na
  date : Option PyDate := none
  country : Value := .null
  media_category : Value := .null
  media_name : Value := .null
  communication : Value := .null
  campaign_category : Value := .null
  product : Value := .null
  campaign_name : Value := .null
  revenue : RawCell := .na
  cost : RawCell := .na
deriving DecidableEq

/-- Effective quarter of a row after the source's coercion chain:
`pd.to_numeric` of the raw cell, `fillna` with the `Q`-pattern extracted
from its string form, `fillna` with `date.dt.quarter`. -/
def effQuarter (r : RawRow) (d : PyDate) : ℚ :=
  match toNumeric r.quarter with
  | some q => q
  | none =>
    match extractQPat (astypeStr r.quarter).data with
    | some n => (n : ℚ)
    | none => (((d.m + 2) / 3 : Nat) : ℚ)

/-- Effective month of a row after the source's coercion chain:
`pd.to_numeric`, `fillna` with the `M`-pattern, `fillna` with
`date.dt.month`. -/
def effMonth (r : RawRow) (d : PyDate) : ℚ :=
  match toNumeric r.month with
  | some q => q
  | none =>
    match extractMPat (astypeStr r.month).data with
    | some n => (n : ℚ)
    | none => (d.m : ℚ)

structure CoercedRow where
  year : Option ℚ := some 0
  quarter : ℚ := 1
  month : ℚ := 1
  week : Option ℚ := some 0
  date : PyDate := { y := 1970, m := 1, d := 1 }
  country : Value := .null
  media_category : Value := .null
  media_name : Value := .null
  communication : Value := .null
  campaign_category : Value := .null
  product : Value := .null
  campaign_name : Value := .null
  revenue : ℚ := 0
  cost : ℚ := 0
deriving DecidableEq

def qmBad (r : RawRow) : Bool :=
  let d := r.date.getD { y := 1970, m := 1, d := 1 }
  !(decide ((1 : ℚ) ≤ effQuarter r d) && decide (effQuarter r d ≤ 4)) ||
  !(decide ((1 : ℚ) ≤ effMonth r d) && decide (effMonth r d ≤ 12))

/-- Model of `MarketingDataLoader._coerce_types`: fail if any date failed to
parse; fail if any effective quarter/month is outside `[1,4]` / `[1,12]`;
coerce the numeric columns; fail if any revenue/cost is missing after
coercion; otherwise return the coerced rows. -/
def coerce_types (rows : List RawRow) : Except String (List CoercedRow) :=
  if rows.any (fun r => r.date.isNone) then
    .error "Some rows have invalid Date values after parsing."
  else if rows.any qmBad then
    .error "Some rows have invalid Quarter/Month values after parsing."
  else if rows.any (fun r => (toNumeric r.revenue).isNone || (toNumeric r.cost).isNone) then
    .error "Some rows have invalid Revenue/Cost values after parsing."
  else
    .ok (rows.map (fun r =>
      let d := r.date.getD { y := 1970, m := 1, d := 1 }
      { year := toNumeric r.year, quarter := effQuarter r d, month := effMonth r d,
        week := toNumeric r.week, date := d,
        country := r.country, media_category := r.media_category,
        media_name := r.media_name, communication := r.communication,
        campaign_category := r.campaign_category, product := r.product,
        campaign_name := r.campaign_name,
        revenue := (toNumeric r.revenue).getD 0, cost := (toNumeric r.cost).getD 0 }))

structure CRow extends CoercedRow where
  profit : ℚ := 0
deriving DecidableEq

def add_derived_metrics (c : CoercedRow) : CRow :=
  { toCoercedRow := c, profit := c.revenue - c.cost }

/-! ## Row identity (MarketingDataLoader._add_row_id) -/

def padNat (w n : Nat) : String :=
  let s := toString n
  String.mk (List.replicate (w - s.length) '0') ++ s

/-- Python `str(v.date())`: `YYYY-MM-DD` with zero padding, the time-of-day
and timezone stripped. -/
def dateStr (d : PyDate) : String :=
  padNat 4 d.y ++ "-" ++ padNat 2 d.m ++ "-" ++ padNat 2 d.d

def dimStr : Value → String
  | .int i => toString i
  | .rat q => ratPyStr q
  | .str s => s
  | .date d => dateStr d
  | .null => "nan"

def cellStrOpt : Option ℚ → String
  | none => "nan"
  | some q => ratPyStr q

/-- String form of one hash column of a row, as the f-string `f"{c}={v}"`
renders its value: numeric columns are float64 after coercion, the date is
normalized via `str(v.date())`, dimension columns print their cell. -/
def hashCellStr (r : CRow) : String → String
  | "year" => cellStrOpt r.year
  | "quarter" => ratPyStr r.quarter
  | "month" => ratPyStr r.month
  | "week" => cellStrOpt r.week
  | "date" => dateStr r.date
  | "country" => dimStr r.country
  | "media_category" => dimStr r.media_category
  | "media_name" => dimStr r.media_name
  | "communication" => dimStr r.communication
  | "campaign_category" => dimStr r.campaign_category
  | "product" => dimStr r.product
  | "campaign_name" => dimStr r.campaign_name
  | "revenue" => ratPyStr r.revenue
  | "cost" => ratPyStr r.cost
  | _ => ""

/-- `build_row_key`: `"|".join(f"{c}={v}" for c in row_id_hash_columns)`,
in the declared column order. -/
def build_row_key (r : CRow) : String :=
  String.intercalate "|" (ROW_ID_HASH_COLUMNS.map (fun c => c ++ "=" ++ hashCellStr r c))

/-- `hash_key`: sha256 hex digest truncated to its first 16 characters. -/
def hash_key (key : String) : String := (sha256Hex key).take 16

def row_id (r : CRow) : String := hash_key (build_row_key r)

/-- `_add_row_id`: attach the deterministic id column to every row. -/
def add_row_id (rows : List CRow) : List (CRow × String) :=
  rows.map (fun r => (r, row_id r))

/-- Equality of the `row_id_hash_columns` values of two rows (all columns
except the derived `profit` and the id itself). -/
def hashColsEq (r s : CRow) : Prop :=
  r.year = s.year ∧ r.quarter = s.quarter ∧ r.month = s.month ∧ r.week = s.week ∧
  r.date = s.date ∧ r.country = s.country ∧ r.media_category = s.media_category ∧
  r.media_name = s.media_name ∧ r.communication = s.communication ∧
  r.campaign_category = s.campaign_category ∧ r.product = s.product ∧
  r.campaign_name = s.campaign_name ∧ r.revenue = s.revenue ∧ r.cost = s.cost

instance (r s : CRow) : Decidable (hashColsEq r s) := by
  unfold hashColsEq
  infer_instance

/-- Post-validation load pipeline: coerce types, add the derived `profit`,
attach `row_id` (column validation and renaming act on the column set and
are implicit in the `RawRow` field names). -/
def load_table (rows : List RawRow) : Except String (List (CRow × String)) :=
  (coerce_types rows).map (fun cs => add_row_id (cs.map add_derived_metrics))

/-! ## Query plan (src/engine/query_plan.py)

Field literals are carried as strings, as they travel in transit; the
pydantic `Literal` acceptance sets are `IntentStrs`, `MetricStrs`,
`FilterFieldStrs` and `GroupByFieldStrs` above. Defaults mirror the model:
`intent = "unknown"`, empty lists, `time_range.type = "all"`, optional
`top_n` / `sort_by`.
-/

structure TimeRange where
  type : String := "all"
  year : Option Int := none
  quarter : Option Int := none
  n_years : Option Int := none
deriving DecidableEq

structure QFilter where
  field : String
  op : String := "="
  value : Value := .null
deriving DecidableEq

structure SortBy where
  field : String
  direction : String := "desc"
deriving DecidableEq

structure QueryPlan where
  intent : String := "unknown"
  metrics : List String := []
  groupby : List String := []
  time_range : TimeRange := {}
  filters : List QFilter := []
  top_n : Option Int := none
  sort_by : Option SortBy := none
deriving DecidableEq

/-! ## Normalized table rows

One row of the loader's output as the engine reads it: snake_case columns,
parsed date, derived `profit` present. The time fields hold the integral
values of the normalized table (float64 with integral values in pandas);
dimension cells are strings or missing.
-/

structure NRow where
  year : Int := 0
  quarter : Int := 1
  month : Int := 1
  week : Int := 1
  date : PyDate := { y := 2023, m := 1, d := 1 }
  country : Value := .null
  media_category : Value := .null
  media_name : Value := .null
  communication : Value := .null
  campaign_category : Value := .null
  product : Value := .null
  campaign_name : Value := .null
  revenue : ℚ := 0
  cost : ℚ := 0
  profit : ℚ := 0
  row_id : String := ""
deriving DecidableEq

/-- Columns of the normalized frame; `df[c]` raises `KeyError` for any
other name. -/
def colExists (c : String) : Bool :=
  ["year", "quarter", "month", "week", "date",
   "country", "media_category", "media_name", "communication",
   "campaign_category", "product", "campaign_name",
   "revenue", "cost", "profit", "row_id"].contains c

/-- Cell of a row at a named column (meaningful when `colExists`). -/
def getCol (r : NRow) : String → Value
  | "year" => .int r.year
  | "quarter" => .int r.quarter
  | "month" => .int r.month
  | "week" => .int r.week
  | "date" => .date r.date
  | "country" => r.country
  | "media_category" => r.media_category
  | "media_name" => r.media_name
  | "communication" => r.communication
  | "campaign_category" => r.campaign_category
  | "product" => r.product
  | "campaign_name" => r.campaign_name
  | "revenue" => .rat r.revenue
  | "cost" => .rat r.cost
  | "profit" => .rat r.profit
  | "row_id" => .str r.row_id
  | _ => .null

def validMetricName (m : String) : Bool := MetricStrs.contains m

/-- Numeric value of a metric column (meaningful when `validMetricName`). -/
def getMetricD (m : String) (r : NRow) : ℚ :=
  match m with
  | "revenue" => r.revenue
  | "cost" => r.cost
  | "profit" => r.profit
  | _ => 0

/-- Group key of a row for a list of grouping columns. -/
def keyOf (cols : List String) (r : NRow) : List Value := cols.map (getCol r)

/-! ## Query engine (src/engine/query_engine.py) -/

def maxYearOf (df : List NRow) : Option Int := maxInt? (df.map (fun r => r.year))

/-- `_slice_last_quarter`: `int(df["year"].max())` raises on an empty frame
(`max()` is `NaN`); then the maximum quarter within the maximum year, and
the slice to the previous quarter (wrapping `(year-1, 4)` from quarter 1). -/
def slice_last_quarter (df : List NRow) : Except String (List NRow) :=
  match maxYearOf df with
  | none => .error "cannot convert float NaN to integer"
  | some maxY =>
    match maxInt? ((df.filter (fun r => decide (r.year = maxY))).map (fun r => r.quarter)) with
    | none => .error "cannot convert float NaN to integer"
    | some maxQ =>
      let yq := if maxQ = 1 then (maxY - 1, (4 : Int)) else (maxY, maxQ - 1)
      .ok (df.filter (fun r => decide (r.year = yq.1) && decide (r.quarter = yq.2)))

/-- `_apply_time_range`. The `last_n_years` branch transcribes the source
faithfully: it first requires `time_range.year`, computes
`int(df["year"].max())` (raising on an empty frame), and then evaluates
`df[df["year"] >= start_year] & (df["year"] <= max_year)` — a DataFrame
AND-ed with a boolean Series, which does not produce the year slice: on any
frame with surviving rows the elementwise `&` over the object-dtype columns
raises `TypeError` (and on an empty survivor set it yields a malformed
column-aligned frame rather than a year slice), modelled as an error. -/
def apply_time_range (df : List NRow) (plan : QueryPlan) : Except String (List NRow) :=
  let tr := plan.time_range
  if tr.type = "all" then .ok df
  else if tr.type = "year" then
    match tr.year with
    | none => .error "time_range.year is required for type=year"
    | some y => .ok (df.filter (fun r => decide (r.year = y)))
  else if tr.type = "quarter" then
    match tr.year, tr.quarter with
    | some y, some q => .ok (df.filter (fun r => decide (r.year = y) && decide (r.quarter = q)))
    | _, _ => .error "time_range.year and time_range.quarter are required for type=quarter"
  else if tr.type = "last_quarter" then slice_last_quarter df
  else if tr.type = "last_n_years" then
    match tr.year with
    | none => .error "time_range.year is required for type=last_n_years"
    | some _ =>
      match maxYearOf df with
      | none => .error "cannot convert float NaN to integer"
      | some _ => .error "TypeError: unsupported operand type(s) for &"
  else .ok df

/-- `_apply_filters`: each `"="` filter narrows the frame by elementwise
`==` against the named column (any other op is skipped); accessing a
non-existent column raises `KeyError`. -/
def apply_filters (df : List NRow) : List QFilter → Except String (List NRow)
  | [] => .ok df
  | f :: rest =>
    if f.op = "=" then
      if colExists f.field then
        apply_filters (df.filter (fun r => pyEq (getCol r f.field) f.value)) rest
      else .error "KeyError"
    else apply_filters df rest

/-- `df.groupby(cols, dropna=False).agg({m: "sum" for m in metrics}).reset_index()`:
group keys are the distinct key tuples sorted ascending (missing keys form
their own group and sort last), each metric column dict-deduplicated and
summed per group. Unknown metric or grouping columns raise `KeyError`. -/
def gaRows (df : List NRow) (cols metrics : List String) :
    List (List Value × List ℚ) :=
  (isortLe (lexLe Value.le) (dedupKeep (df.map (keyOf cols)))).map (fun k =>
    (k, (dedupKeep metrics).map (fun m =>
      ((df.filter (fun r => decide (keyOf cols r = k))).map (getMetricD m)).sum)))

def groupAgg (df : List NRow) (cols : List String) (metrics : List String) :
    Except String (List (List Value × List ℚ)) :=
  if !(cols.all colExists) then .error "KeyError"
  else if !((dedupKeep metrics).all validMetricName) then .error "KeyError"
  else .ok (gaRows df cols metrics)

/-- `df.agg({m: "sum" ...}).to_frame().T`: one row of whole-frame sums
(the sum of an empty column is `0`). -/
def aggAll (df : List NRow) (metrics : List String) :
    Except String (List (List Value × List ℚ)) :=
  if !((dedupKeep metrics).all validMetricName) then .error "KeyError"
  else .ok [([], (dedupKeep metrics).map (fun m => (df.map (getMetricD m)).sum))]

/-- `_run_aggregate`. -/
def run_aggregate (df : List NRow) (plan : QueryPlan) :
    Except String (List (List Value × List ℚ)) :=
  if plan.metrics.isEmpty then .error "aggregate requires at least one metric"
  else if plan.groupby.isEmpty then aggAll df plan.metrics
  else groupAgg df plan.groupby plan.metrics

/-- `df.head(n)`: the first `n` rows for `n ≥ 0`, and all but the last
`|n|` rows for negative `n`. -/
def headPd (l : List (List Value × List ℚ)) (n : Int) : List (List Value × List ℚ) :=
  if 0 ≤ n then l.take n.toNat else l.take ((l.length : Int) + n).toNat

/-- Comparator used by `sort_values(by=field, ascending=...)` on the metric
column at index `i` of the aggregated rows. -/
def sortByCmp (i : Nat) (asc : Bool) (a b : List Value × List ℚ) : Bool :=
  if asc then decide (a.2.getD i 0 ≤ b.2.getD i 0) else decide (b.2.getD i 0 ≤ a.2.getD i 0)

/-- `_run_top_n`: requires a grouping and both `top_n` and `sort_by`;
defaults metrics to `["revenue"]`; groups and sums; sorts by the sort
column (`KeyError` if it is not among the aggregated metric columns);
truncates with `head`. The source's single-column `sort_values` uses the
default `kind='quicksort'`, whose tie order is not guaranteed; `isortLe`
is one concrete executable sort standing in for it, and the top-n theorem
states only sort-algorithm-independent properties of the output. -/
def run_top_n (df : List NRow) (plan : QueryPlan) :
    Except String (List (List Value × List ℚ)) :=
  if plan.groupby.isEmpty then .error "top_n requires groupby (e.g., campaign_name)"
  else
    match plan.top_n, plan.sort_by with
    | some n, some sb =>
      let metrics := if plan.metrics.isEmpty then ["revenue"] else plan.metrics
      match groupAgg df plan.groupby metrics with
      | .error e => .error e
      | .ok res =>
        match (dedupKeep metrics).findIdx? (fun m => m = sb.field) with
        | none => .error "KeyError"
        | some i => .ok (headPd (isortLe (sortByCmp i (sb.direction = "asc")) res) n)
    | _, _ => .error "top_n requires top_n and sort_by"

/-- Comparator of `sort_values(cols)` over aggregated rows: ascending
lexicographic order of the key components at the named grouping columns. -/
def keySortCmp (idxs : List Nat) (a b : List Value × List ℚ) : Bool :=
  lexLe Value.le (idxs.map (fun i => a.1.getD i .null)) (idxs.map (fun i => b.1.getD i .null))

/-- `_run_trend`: defaults `groupby` to `[year, month]` and `metrics` to
`[revenue, cost]` when empty; groups and sums; sorts ascending by
`["year", "month"]` when both are in the grouping, else by the grouping
columns in declared order. -/
def run_trend (df : List NRow) (plan : QueryPlan) :
    Except String (List (List Value × List ℚ)) :=
  let group := if plan.groupby.isEmpty then ["year", "month"] else plan.groupby
  let metrics := if plan.metrics.isEmpty then ["revenue", "cost"] else plan.metrics
  match groupAgg df group metrics with
  | .error e => .error e
  | .ok res =>
    if group.contains "year" && group.contains "month" then
      let iy := (group.findIdx? (fun c => c = "year")).getD 0
      let im := (group.findIdx? (fun c => c = "month")).getD 0
      .ok (isortLe (keySortCmp [iy, im]) res)
    else
      .ok (isortLe (keySortCmp (List.range group.length)) res)

/-- `QueryEngine.execute_with_subset`: time-range slice, filters, dispatch
on intent; returns the result rows together with the post-filter subset. -/
def execute_with_subset (df : List NRow) (plan : QueryPlan) :
    Except String (List (List Value × List ℚ) × List NRow) :=
  match apply_time_range df plan with
  | .error e => .error e
  | .ok s1 =>
    match apply_filters s1 plan.filters with
    | .error e => .error e
    | .ok subset =>
      let res :=
        if plan.intent = "aggregate" then run_aggregate subset plan
        else if plan.intent = "top_n" then run_top_n subset plan
        else if plan.intent = "trend" then run_trend subset plan
        else .error ("Unsupported intent: " ++ plan.intent)
      match res with
      | .error e => .error e
      | .ok r => .ok (r, subset)

deriving instance DecidableEq for Except

/-! ## Helper lemmas on the engine -/

theorem apply_time_range_last_quarter (df : List NRow) (plan : QueryPlan)
    (h : plan.time_range.type = "last_quarter") :
    apply_time_range df plan = slice_last_quarter df := by
  simp [apply_time_range, h]

theorem apply_time_range_last_n_years_empty (plan : QueryPlan)
    (h : plan.time_range.type = "last_n_years") :
    ∃ e, apply_time_range ([] : List NRow) plan = .error e := by
  simp only [apply_time_range, h]
  cases hy : plan.time_range.year with
  | none =>
    exact ⟨"time_range.year is required for type=last_n_years", by simp [hy]⟩
  | some y =>
    exact ⟨"cannot convert float NaN to integer", by simp [hy, maxYearOf, maxInt?]⟩

theorem maxYearOf_isSome {df : List NRow} (h : df ≠ []) : ∃ m, maxYearOf df = some m := by
  apply maxInt?_isSome
  simpa using h

theorem slice_last_quarter_ok {df : List NRow} (h : df ≠ []) :
    ∃ maxY maxQ : Int,
      maxYearOf df = some maxY ∧
      maxInt? ((df.filter (fun r => decide (r.year = maxY))).map (fun r => r.quarter)) = some maxQ ∧
      slice_last_quarter df =
        .ok (df.filter (fun r =>
          decide (r.year = (if maxQ = 1 then maxY - 1 else maxY)) &&
          decide (r.quarter = (if maxQ = 1 then (4 : Int) else maxQ - 1)))) := by
  obtain ⟨maxY, hY⟩ := maxYearOf_isSome h
  have hmem : maxY ∈ df.map (fun r => r.year) := maxInt?_mem hY
  obtain ⟨r0, hr0, hy0⟩ := List.mem_map.mp hmem
  have hfil : r0 ∈ df.filter (fun r => decide (r.year = maxY)) :=
    List.mem_filter.mpr ⟨hr0, by simp [hy0]⟩
  have hne : (df.filter (fun r => decide (r.year = maxY))).map (fun r => r.quarter) ≠ [] := by
    intro hcon
    have := List.map_eq_nil_iff.mp hcon
    rw [this] at hfil
    exact absurd hfil (List.not_mem_nil r0)
  obtain ⟨maxQ, hQ⟩ := maxInt?_isSome hne
  refine ⟨maxY, maxQ, hY, hQ, ?_⟩
  simp only [slice_last_quarter, hY, hQ]
  by_cases hq1 : maxQ = 1 <;> simp [hq1]

/-! ## Claim C8 -/

/-- Claim C8: on a non-empty normalized table, a `last_quarter` time range
slices to the single (year, quarter) pair computed from the maximum year
present and the maximum quarter within that year — `(maxYear-1, 4)` when
that quarter is `1`, `(maxYear, maxQ-1)` otherwise. -/
theorem last_quarter_resolves_previous_quarter (df : List NRow) (plan : QueryPlan)
    (hne : df ≠ []) (hty : plan.time_range.type = "last_quarter") :
    ∃ maxY maxQ : Int,
      maxYearOf df = some maxY ∧
      maxInt? ((df.filter (fun r => decide (r.year = maxY))).map (fun r => r.quarter)) = some maxQ ∧
      apply_time_range df plan =
        .ok (df.filter (fun r =>
          decide (r.year = (if maxQ = 1 then maxY - 1 else maxY)) &&
          decide (r.quarter = (if maxQ = 1 then (4 : Int) else maxQ - 1)))) := by
  obtain ⟨maxY, maxQ, hY, hQ, hs⟩ := slice_last_quarter_ok hne
  exact ⟨maxY, maxQ, hY, hQ, by rw [apply_time_range_last_quarter df plan hty, hs]⟩

def c8_df : List NRow :=
  [{ year := 2024, quarter := 1, revenue := 1 },
   { year := 2023, quarter := 4, revenue := 7 },
   { year := 2023, quarter := 3, revenue := 9 }]

def c8_plan : QueryPlan := { intent := "aggregate", time_range := { type := "last_quarter" } }

theorem last_quarter_resolves_previous_quarter_witness :
    c8_df ≠ [] ∧ c8_plan.time_range.type = "last_quarter" ∧
    ∃ maxY maxQ : Int,
      maxYearOf c8_df = some maxY ∧
      maxInt? ((c8_df.filter (fun r => decide (r.year = maxY))).map (fun r => r.quarter)) = some maxQ ∧
      apply_time_range c8_df c8_plan =
        .ok (c8_df.filter (fun r =>
          decide (r.year = (if maxQ = 1 then maxY - 1 else maxY)) &&
          decide (r.quarter = (if maxQ = 1 then (4 : Int) else maxQ - 1)))) :=
  ⟨by decide, rfl, last_quarter_resolves_previous_quarter c8_df c8_plan (by decide) rfl⟩

/-! ## Claim C10 -/

/-- Claim C10: relative time ranges (`last_quarter`, `last_n_years`) raise
on an empty normalized table rather than returning an empty subset — the
maximum-year/maximum-quarter lookups are only defined on a non-empty table,
and under that precondition the `last_quarter` conversion error is
unreachable (the slice succeeds). -/
theorem relative_ranges_error_on_empty_table :
    (∀ plan : QueryPlan, plan.time_range.type = "last_quarter" →
      ∃ e, apply_time_range ([] : List NRow) plan = .error e) ∧
    (∀ plan : QueryPlan, plan.time_range.type = "last_n_years" →
      ∃ e, apply_time_range ([] : List NRow) plan = .error e) ∧
    (∀ df : List NRow, df ≠ [] → ∃ m, maxYearOf df = some m) ∧
    (∀ (df : List NRow) (plan : QueryPlan), df ≠ [] → plan.time_range.type = "last_quarter" →
      ∃ out, apply_time_range df plan = .ok out) := by
  refine ⟨?_, ?_, ?_, ?_⟩
  · intro plan h
    rw [apply_time_range_last_quarter _ _ h]
    exact ⟨"cannot convert float NaN to integer", by simp [slice_last_quarter, maxYearOf, maxInt?]⟩
  · intro plan h
    exact apply_time_range_last_n_years_empty plan h
  · intro df h
    exact maxYearOf_isSome h
  · intro df plan hne hty
    obtain ⟨maxY, maxQ, _, _, hs⟩ := slice_last_quarter_ok hne
    exact ⟨_, by rw [apply_time_range_last_quarter _ _ hty, hs]⟩

theorem relative_ranges_error_on_empty_table_witness :
    c8_plan.time_range.type = "last_quarter" ∧
    (∃ e, apply_time_range ([] : List NRow) c8_plan = .error e) ∧
    c8_df ≠ [] ∧ (∃ m, maxYearOf c8_df = some m) ∧
    (∃ out, apply_time_range c8_df c8_plan = .ok out) :=
  ⟨rfl, relative_ranges_error_on_empty_table.1 c8_plan rfl, by decide,
   relative_ranges_error_on_empty_table.2.2.1 c8_df (by decide),
   relative_ranges_error_on_empty_table.2.2.2 c8_df c8_plan (by decide) rfl⟩

/-! ## Claim C1 -/

def c1_df : List NRow := [{ year := 2023, quarter := 2, revenue := 10 }]

def c1_plan : QueryPlan :=
  { intent := "aggregate", metrics := ["revenue"],
    time_range := { type := "last_n_years", year := some 2023, n_years := some 1 } }

def c1_plan_noyear : QueryPlan :=
  { intent := "aggregate", metrics := ["revenue"],
    time_range := { type := "last_n_years", n_years := some 1 } }

/-- Claim C1 (code bug): the `last_n_years` slice never returns the rows in
`[maxYear-n+1, maxYear]`. On a one-row table with `year = 2023` and
`n_years = 1` every row lies in the claimed inclusive range, yet the source
raises (`df[df["year"] >= start_year] & (df["year"] <= max_year)` is a
DataFrame AND-ed with a boolean Series); moreover `time_range.year` is
demanded even though the claim needs no other time-range field. -/
theorem last_n_years_masking_bug :
    apply_time_range c1_df c1_plan = .error "TypeError: unsupported operand type(s) for &" ∧
    c1_df.filter (fun r => decide (2023 - 1 + 1 ≤ r.year) && decide (r.year ≤ 2023)) = c1_df ∧
    apply_time_range c1_df c1_plan_noyear =
      .error "time_range.year is required for type=last_n_years" := by
  refine ⟨by decide, by decide, by decide⟩

/-! ## Claim C3 -/

/-- Claim C3 counterexample: `communication` is declared in the Schema
Registry's `dimensions`, yet a plan whose `groupby` contains it fails the
`GroupByField` literal validation at construction (the literal omits
`communication` and `campaign_category`). -/
theorem registry_dimension_rejected_in_groupby :
    "communication" ∈ DIMENSIONS ∧ groupbyAccepted ["communication"] = false := by
  decide

/-- Claim C3 (amended): filter fields accepted at plan construction are
exactly the registry dimensions; groupby fields accepted are exactly the
registry dimensions except `communication` and `campaign_category`; in both
positions any name outside the registry's dimensions is rejected, and a
list validates iff each of its entries is an accepted literal. -/
theorem plan_field_validation_vs_registry :
    (∀ s : String, FilterFieldStrs.contains s = true ↔ s ∈ DIMENSIONS) ∧
    (∀ s : String, GroupByFieldStrs.contains s = true ↔
      (s ∈ DIMENSIONS ∧ s ≠ "communication" ∧ s ≠ "campaign_category")) ∧
    (∀ gs : List String, groupbyAccepted gs = true ↔
      ∀ g ∈ gs, GroupByFieldStrs.contains g = true) ∧
    (∀ fs : List String, filterFieldsAccepted fs = true ↔
      ∀ f ∈ fs, FilterFieldStrs.contains f = true) := by
  refine ⟨?_, ?_, ?_, ?_⟩
  · intro s
    constructor
    · intro h
      have hs : s ∈ FilterFieldStrs := by
        simpa [List.contains_iff_exists_mem_beq, beq_iff_eq, eq_comm] using h
      fin_cases hs <;> decide
    · intro h
      fin_cases h <;> decide
  · intro s
    constructor
    · intro h
      have hs : s ∈ GroupByFieldStrs := by
        simpa [List.contains_iff_exists_mem_beq, beq_iff_eq, eq_comm] using h
      fin_cases hs <;> refine ⟨by decide, by decide, by decide⟩
    · rintro ⟨hdim, h1, h2⟩
      fin_cases hdim <;> first | decide | (exact absurd rfl h1) | (exact absurd rfl h2)
  · intro gs
    simp [groupbyAccepted, List.all_eq_true]
  · intro fs
    simp [filterFieldsAccepted, List.all_eq_true]

theorem plan_field_validation_vs_registry_witness :
    (FilterFieldStrs.contains "communication" = true ↔ "communication" ∈ DIMENSIONS) ∧
    (GroupByFieldStrs.contains "country" = true ↔
      ("country" ∈ DIMENSIONS ∧ "country" ≠ "communication" ∧ "country" ≠ "campaign_category")) ∧
    (groupbyAccepted ["year", "country"] = true ↔
      ∀ g ∈ ["year", "country"], GroupByFieldStrs.contains g = true) :=
  ⟨plan_field_validation_vs_registry.1 "communication",
   plan_field_validation_vs_registry.2.1 "country",
   plan_field_validation_vs_registry.2.2.1 ["year", "country"]⟩

/-! ## Claim C4 -/

/-- Claim C4: `row_id` is the first 16 hex characters of the sha256 digest
of the concatenated `"{column}={value}"` parts in declared hash-column
order (dates normalized to `YYYY-MM-DD`); it is a pure function of the
hash-column values (the derived `profit` never contributes), so loading the
same rows in any order yields the same multiset of `row_id` values. -/
theorem row_id_pure_and_order_independent :
    (∀ r : CRow, row_id r = (sha256Hex (build_row_key r)).take 16) ∧
    (∀ r s : CRow, hashColsEq r s → row_id r = row_id s) ∧
    (∀ l l' : List CRow, List.Perm l l' →
      List.Perm ((add_row_id l).map Prod.snd) ((add_row_id l').map Prod.snd)) := by
  refine ⟨fun r => rfl, ?_, ?_⟩
  · intro r s h
    obtain ⟨⟨ry, rq, rm, rw', rd, rc1, rc2, rc3, rc4, rc5, rc6, rc7, rrev, rcost⟩, rp⟩ := r
    obtain ⟨⟨sy, sq, sm, sw, sd, sc1, sc2, sc3, sc4, sc5, sc6, sc7, srev, scost⟩, sp⟩ := s
    obtain ⟨h1, h2, h3, h4, h5, h6, h7, h8, h9, h10, h11, h12, h13, h14⟩ := h
    subst h1; subst h2; subst h3; subst h4; subst h5; subst h6; subst h7
    subst h8; subst h9; subst h10; subst h11; subst h12; subst h13; subst h14
    rfl
  · intro l l' hperm
    exact (hperm.map (fun r => (r, row_id r))).map Prod.snd

def c4_r1 : CRow := { revenue := 100, cost := 40 }

def c4_r2 : CRow := { revenue := 100, cost := 40, profit := 60 }

theorem row_id_pure_and_order_independent_witness :
    hashColsEq c4_r1 c4_r2 ∧ row_id c4_r1 = row_id c4_r2 ∧
    List.Perm [c4_r1, c4_r2] [c4_r2, c4_r1] ∧
    List.Perm ((add_row_id [c4_r1, c4_r2]).map Prod.snd)
      ((add_row_id [c4_r2, c4_r1]).map Prod.snd) :=
  ⟨by decide,
   row_id_pure_and_order_independent.2.1 c4_r1 c4_r2 (by decide),
   List.Perm.swap c4_r2 c4_r1 [],
   row_id_pure_and_order_independent.2.2 _ _ (List.Perm.swap c4_r2 c4_r1 [])⟩

/-! ## Claim C5 -/

/-- A raw row the claim calls bad: unparseable date, or an effective
quarter/month (after the numeric / pattern / date-fallback chain) outside
`[1,4]` / `[1,12]`, or revenue/cost missing after numeric coercion. -/
def badLoadRow (r : RawRow) : Prop :=
  r.date = none ∨
  ¬((1 : ℚ) ≤ effQuarter r (r.date.getD { y := 1970, m := 1, d := 1 }) ∧
     effQuarter r (r.date.getD { y := 1970, m := 1, d := 1 }) ≤ 4) ∨
  ¬((1 : ℚ) ≤ effMonth r (r.date.getD { y := 1970, m := 1, d := 1 }) ∧
     effMonth r (r.date.getD { y := 1970, m := 1, d := 1 }) ≤ 12) ∨
  toNumeric r.revenue = none ∨ toNumeric r.cost = none

instance (r : RawRow) : Decidable (badLoadRow r) := by
  unfold badLoadRow
  infer_instance

/-- Claim C5: any source containing a bad row (see `badLoadRow`) makes the
load fail with an error; no partial table is produced. -/
theorem bad_rows_fail_load (rows : List RawRow)
    (h : ∃ r ∈ rows, badLoadRow r) :
    ∃ e, load_table rows = .error e := by
  obtain ⟨r, hr, hbad⟩ := h
  unfold load_table
  by_cases h1 : rows.any (fun r => r.date.isNone) = true
  · exact ⟨"Some rows have invalid Date values after parsing.",
      by simp [coerce_types, h1, Except.map]⟩
  · by_cases h2 : rows.any qmBad = true
    · exact ⟨"Some rows have invalid Quarter/Month values after parsing.",
        by simp [coerce_types, h1, h2, Except.map]⟩
    · by_cases h3 : rows.any
          (fun r => (toNumeric r.revenue).isNone || (toNumeric r.cost).isNone) = true
      · exact ⟨"Some rows have invalid Revenue/Cost values after parsing.",
          by simp [coerce_types, h1, h2, h3, Except.map]⟩
      · exfalso
        rw [List.any_eq_true] at h1 h2 h3
        push_neg at h1 h2 h3
        rcases hbad with hd | hq | hm | hrev | hcost
        · have := h1 r hr
          simp [hd] at this
        · have hqb : qmBad r = true := by
            simp only [qmBad, Bool.or_eq_true, Bool.not_eq_true',
              Bool.and_eq_false_iff, decide_eq_false_iff_not]
            left
            rcases Decidable.not_and_iff_or_not.mp hq with h | h
            · exact Or.inl h
            · exact Or.inr h
          exact absurd hqb (h2 r hr)
        · have hqb : qmBad r = true := by
            simp only [qmBad, Bool.or_eq_true, Bool.not_eq_true',
              Bool.and_eq_false_iff, decide_eq_false_iff_not]
            right
            rcases Decidable.not_and_iff_or_not.mp hm with h | h
            · exact Or.inl h
            · exact Or.inr h
          exact absurd hqb (h2 r hr)
        · have := h3 r hr
          simp [hrev] at this
        · have := h3 r hr
          simp [hcost] at this

def c5_row : RawRow :=
  { date := some { y := 2020, m := 5, d := 1 }, quarter := .num 5,
    revenue := .num 1, cost := .num 1 }

theorem bad_rows_fail_load_witness :
    (∃ r ∈ [c5_row], badLoadRow r) ∧ ∃ e, load_table [c5_row] = .error e :=
  ⟨by decide, bad_rows_fail_load [c5_row] (by decide)⟩

/-! ## Claim C6 -/

/-- Whether one plan filter keeps a row: an `"="` filter demands elementwise
equality on its column, any other op does not constrain. -/
def keepsFilter (r : NRow) (f : QFilter) : Bool :=
  if f.op = "=" then pyEq (getCol r f.field) f.value else true

theorem apply_filters_ok_eq : ∀ (fs : List QFilter) (df out : List NRow),
    apply_filters df fs = .ok out →
    out = df.filter (fun r => fs.all (keepsFilter r)) := by
  intro fs
  induction fs with
  | nil =>
    intro df out h
    simp only [apply_filters, Except.ok.injEq] at h
    simp [← h]
  | cons f rest ih =>
    intro df out h
    by_cases hop : f.op = "="
    · simp only [apply_filters, hop, if_pos] at h
      by_cases hcol : colExists f.field = true
      · rw [if_pos hcol] at h
        rw [ih _ _ h, List.filter_filter]
        apply List.filter_congr
        intro r _
        simp [keepsFilter, hop, Bool.and_comm]
      · rw [if_neg hcol] at h
        cases h
    · simp only [apply_filters, hop, if_neg, if_false] at h
      rw [ih _ _ h]
      apply List.filter_congr
      intro r _
      simp [keepsFilter, hop]

/-- Claim C6: the subset returned by `execute_with_subset` is exactly the
rows surviving the time-range slice and then every equality filter (their
conjunction), before aggregation; and for an aggregate plan with empty
groupby and metric `revenue`, the result's revenue is the sum of the
subset's revenue column. -/
theorem subset_is_post_filter_rows (df : List NRow) (plan : QueryPlan)
    (sliced : List NRow) (res : List (List Value × List ℚ)) (subset : List NRow)
    (hslice : apply_time_range df plan = .ok sliced)
    (hexec : execute_with_subset df plan = .ok (res, subset)) :
    subset = sliced.filter (fun r => plan.filters.all (keepsFilter r)) ∧
    (plan.intent = "aggregate" → plan.groupby = [] → plan.metrics = ["revenue"] →
      res = [([], [(subset.map (fun r => r.revenue)).sum])]) := by
  unfold execute_with_subset at hexec
  rw [hslice] at hexec
  dsimp only at hexec
  cases hfil : apply_filters sliced plan.filters with
  | error e => rw [hfil] at hexec; cases hexec
  | ok out =>
    rw [hfil] at hexec
    dsimp only at hexec
    cases hres : (if plan.intent = "aggregate" then run_aggregate out plan
        else if plan.intent = "top_n" then run_top_n out plan
        else if plan.intent = "trend" then run_trend out plan
        else .error ("Unsupported intent: " ++ plan.intent)) with
    | error e => rw [hres] at hexec; cases hexec
    | ok rr =>
      rw [hres] at hexec
      injection hexec with hpair
      injection hpair with hres' hsub
      subst hres'
      subst hsub
      refine ⟨apply_filters_ok_eq _ _ _ hfil, ?_⟩
      intro hint hgb hm
      rw [hint] at hres
      simp only [if_pos] at hres
      rw [run_aggregate, hm, hgb] at hres
      simp only [List.isEmpty_nil, if_neg, if_pos, Bool.false_eq_true, not_false_eq_true,
        reduceIte] at hres
      rw [show aggAll out ["revenue"] =
          .ok [([], [(out.map (fun r => r.revenue)).sum])] from rfl] at hres
      injection hres with h
      exact h.symm

def c6_rA : NRow := { year := 2023, country := .str "IT", revenue := 7 }

def c6_rB : NRow := { year := 2023, country := .str "FR", revenue := 5 }

def c6_rC : NRow := { year := 2022, country := .str "IT", revenue := 3 }

def c6_df : List NRow := [c6_rA, c6_rB, c6_rC]

def c6_plan : QueryPlan :=
  { intent := "aggregate", metrics := ["revenue"],
    time_range := { type := "year", year := some 2023 },
    filters := [{ field := "country", value := .str "IT" }] }

theorem subset_is_post_filter_rows_witness :
    apply_time_range c6_df c6_plan = .ok [c6_rA, c6_rB] ∧
    execute_with_subset c6_df c6_plan = .ok ([([], [7])], [c6_rA]) ∧
    ([c6_rA] : List NRow) =
      [c6_rA, c6_rB].filter (fun r => c6_plan.filters.all (keepsFilter r)) ∧
    (c6_plan.intent = "aggregate" → c6_plan.groupby = [] → c6_plan.metrics = ["revenue"] →
      ([([], [7])] : List (List Value × List ℚ)) =
        [([], [(([c6_rA] : List NRow).map (fun r => r.revenue)).sum])]) :=
  ⟨by decide, by with_unfolding_all decide,
   (subset_is_post_filter_rows c6_df c6_plan [c6_rA, c6_rB] [([], [7])] [c6_rA]
     (by decide) (by with_unfolding_all decide)).1,
   (subset_is_post_filter_rows c6_df c6_plan [c6_rA, c6_rB] [([], [7])] [c6_rA]
     (by decide) (by with_unfolding_all decide)).2⟩

/-! ## Claim C7 -/

/-- What grouped aggregation guarantees about its output rows: distinct
group keys, one key per distinct key present in the frame (missing/null
keys included as their own group), and per-group sums of the
dict-deduplicated metrics. -/
def GroupedContract (df : List NRow) (cols metrics : List String)
    (out : List (List Value × List ℚ)) : Prop :=
  (out.map Prod.fst).Nodup ∧
  (∀ k : List Value, k ∈ out.map Prod.fst ↔ k ∈ df.map (keyOf cols)) ∧
  (∀ row ∈ out, row.2 = (dedupKeep metrics).map (fun m =>
    ((df.filter (fun r => decide (keyOf cols r = row.1))).map (getMetricD m)).sum))

theorem gaRows_keys (df : List NRow) (cols metrics : List String) :
    (gaRows df cols metrics).map Prod.fst =
      isortLe (lexLe Value.le) (dedupKeep (df.map (keyOf cols))) := by
  unfold gaRows
  rw [List.map_map]
  have h : (Prod.fst ∘ fun k : List Value =>
      (k, (dedupKeep metrics).map (fun m =>
        ((df.filter (fun r => decide (keyOf cols r = k))).map (getMetricD m)).sum))) = id := rfl
  rw [h, List.map_id]

theorem gaRows_contract (df : List NRow) (cols metrics : List String) :
    GroupedContract df cols metrics (gaRows df cols metrics) := by
  refine ⟨?_, ?_, ?_⟩
  · rw [gaRows_keys]
    exact ((isortLe_perm _ _).nodup_iff).mpr (nodup_dedupKeep _)
  · intro k
    rw [gaRows_keys]
    exact ((isortLe_perm _ _).mem_iff).trans mem_dedupKeep
  · intro row hrow
    obtain ⟨k, _, rfl⟩ := List.mem_map.mp hrow
    rfl

theorem groupAgg_ok (df : List NRow) (cols metrics : List String)
    (hc : cols.all colExists = true)
    (hm : (dedupKeep metrics).all validMetricName = true) :
    groupAgg df cols metrics = .ok (gaRows df cols metrics) := by
  simp [groupAgg, hc, hm]

/-- Claim C7: an aggregate plan with no metrics fails; with metrics and no
grouping it returns a single row of whole-subset sums (an empty subset sums
to `0` for every metric rather than failing); with a grouping it returns
one row per distinct grouping key — missing/null keys forming their own
group — carrying the per-group sums. -/
theorem aggregate_semantics (df : List NRow) (plan : QueryPlan) :
    (plan.metrics = [] → run_aggregate df plan = .error "aggregate requires at least one metric") ∧
    (plan.metrics ≠ [] → (dedupKeep plan.metrics).all validMetricName = true →
      plan.groupby = [] →
      run_aggregate df plan =
        .ok [([], (dedupKeep plan.metrics).map (fun m => (df.map (getMetricD m)).sum))] ∧
      (df = [] →
        run_aggregate df plan = .ok [([], (dedupKeep plan.metrics).map (fun _ => (0 : ℚ)))])) ∧
    (plan.metrics ≠ [] → (dedupKeep plan.metrics).all validMetricName = true →
      plan.groupby ≠ [] → plan.groupby.all colExists = true →
      run_aggregate df plan = .ok (gaRows df plan.groupby plan.metrics) ∧
      GroupedContract df plan.groupby plan.metrics (gaRows df plan.groupby plan.metrics)) := by
  refine ⟨?_, ?_, ?_⟩
  · intro h
    simp [run_aggregate, h]
  · intro hne hm hgb
    have hie : plan.metrics.isEmpty = false := by
      cases hmet : plan.metrics with
      | nil => exact absurd hmet hne
      | cons a as => simp
    constructor
    · simp [run_aggregate, hie, hgb, aggAll, hm]
    · intro hdf
      subst hdf
      simp [run_aggregate, hie, hgb, aggAll, hm]
  · intro hne hm hgb hc
    have hie : plan.metrics.isEmpty = false := by
      cases hmet : plan.metrics with
      | nil => exact absurd hmet hne
      | cons a as => simp
    have hgie : plan.groupby.isEmpty = false := by
      cases hg : plan.groupby with
      | nil => exact absurd hg hgb
      | cons a as => simp
    refine ⟨?_, gaRows_contract df plan.groupby plan.metrics⟩
    simp [run_aggregate, hie, hgie, groupAgg_ok df plan.groupby plan.metrics hc hm]

def c7_df : List NRow :=
  [{ country := .null, revenue := 5, cost := 1 },
   { country := .str "IT", revenue := 7, cost := 2 },
   { country := .str "IT", revenue := 1, cost := 1 }]

def c7_plan : QueryPlan :=
  { intent := "aggregate", metrics := ["revenue", "cost"], groupby := ["country"] }

def c7_plan_empty : QueryPlan := { intent := "aggregate", metrics := ["revenue"] }

theorem aggregate_semantics_witness :
    c7_plan.metrics ≠ [] ∧ (dedupKeep c7_plan.metrics).all validMetricName = true ∧
    c7_plan.groupby ≠ [] ∧ c7_plan.groupby.all colExists = true ∧
    run_aggregate c7_df c7_plan = .ok (gaRows c7_df c7_plan.groupby c7_plan.metrics) ∧
    GroupedContract c7_df c7_plan.groupby c7_plan.metrics
      (gaRows c7_df c7_plan.groupby c7_plan.metrics) ∧
    c7_plan_empty.metrics ≠ [] ∧ c7_plan_empty.groupby = [] ∧
    run_aggregate ([] : List NRow) c7_plan_empty =
      .ok [([], (dedupKeep c7_plan_empty.metrics).map (fun _ => (0 : ℚ)))] :=
  ⟨by decide, by decide, by decide, by decide,
   ((aggregate_semantics c7_df c7_plan).2.2 (by decide) (by decide) (by decide) (by decide)).1,
   ((aggregate_semantics c7_df c7_plan).2.2 (by decide) (by decide) (by decide) (by decide)).2,
   by decide, rfl,
   ((aggregate_semantics ([] : List NRow) c7_plan_empty).2.1 (by decide) (by decide) rfl).2 rfl⟩

/-! ## Claim C2 -/

theorem sortByCmp_trans (i : Nat) (asc : Bool) : ∀ a b c,
    sortByCmp i asc a b = true → sortByCmp i asc b c = true →
    sortByCmp i asc a c = true := by
  intro a b c h1 h2
  cases asc <;>
    simp only [sortByCmp, if_true, if_false, Bool.false_eq_true, reduceIte,
      decide_eq_true_eq] at h1 h2 ⊢
  · exact le_trans h2 h1
  · exact le_trans h1 h2

theorem sortByCmp_total (i : Nat) (asc : Bool) : ∀ a b,
    sortByCmp i asc a b = true ∨ sortByCmp i asc b a = true := by
  intro a b
  cases asc <;>
    simp only [sortByCmp, if_true, if_false, Bool.false_eq_true, reduceIte,
      decide_eq_true_eq]
  · exact le_total _ _
  · exact le_total _ _

/-- The top-n output contract: at most `n` rows; the output is the `n`-head
of some rearrangement of the grouped rows ordered by the sort column in the
requested direction. The relative order of ties is left unspecified — the
source's single-column `sort_values` (default quicksort) gives no tie
guarantee — so the contract holds for any comparison sort. -/
def TopNContract (df : List NRow) (plan : QueryPlan) (n : Int) (sb : SortBy)
    (out : List (List Value × List ℚ)) : Prop :=
  ((out.length : Int) ≤ n) ∧
  ∃ (metrics : List String) (i : Nat) (groups sorted : List (List Value × List ℚ)),
    metrics = (if plan.metrics.isEmpty then ["revenue"] else plan.metrics) ∧
    (dedupKeep metrics).findIdx? (fun m => m = sb.field) = some i ∧
    groupAgg df plan.groupby metrics = .ok groups ∧
    List.Perm sorted groups ∧
    List.Pairwise (fun a b => sortByCmp i (sb.direction = "asc") a b = true) sorted ∧
    out = sorted.take n.toNat ∧
    List.Pairwise (fun a b => sortByCmp i (sb.direction = "asc") a b = true) out

/-- Claim C2 (amended): for a top-n plan with non-empty groupby, `top_n`
and `sort_by` set and `top_n` non-negative, a successful execution groups
and sums, sorts by the sort field (descending unless `asc`) and truncates
to at most `top_n` rows: the output is the `top_n`-head of a sorted
permutation of the grouped rows and its sort-field values are monotonic in
the requested direction. The order of ties is not asserted (the source's
single-column `sort_values` with the default quicksort does not guarantee
it). -/
theorem top_n_sorted_and_truncated (df : List NRow) (plan : QueryPlan)
    (n : Int) (sb : SortBy) (out : List (List Value × List ℚ))
    (hn : plan.top_n = some n) (hnn : 0 ≤ n) (hsb : plan.sort_by = some sb)
    (hok : run_top_n df plan = .ok out) :
    TopNContract df plan n sb out := by
  unfold run_top_n at hok
  by_cases hgb : plan.groupby.isEmpty = true
  · rw [if_pos hgb] at hok; cases hok
  · rw [if_neg hgb, hn, hsb] at hok
    dsimp only at hok
    cases hga : groupAgg df plan.groupby
        (if plan.metrics.isEmpty then ["revenue"] else plan.metrics) with
    | error e => rw [hga] at hok; cases hok
    | ok groups =>
      rw [hga] at hok
      cases hidx : (dedupKeep (if plan.metrics.isEmpty then ["revenue"] else plan.metrics)).findIdx?
          (fun m => m = sb.field) with
      | none => rw [hidx] at hok; cases hok
      | some i =>
        rw [hidx] at hok
        injection hok with hout
        have hhead : out = (isortLe (sortByCmp i (sb.direction = "asc")) groups).take n.toNat := by
          rw [← hout]
          unfold headPd
          rw [if_pos hnn]
        refine ⟨?_, (if plan.metrics.isEmpty then ["revenue"] else plan.metrics), i,
          groups, isortLe (sortByCmp i (sb.direction = "asc")) groups,
          rfl, hidx, hga, isortLe_perm _ _,
          isortLe_pairwise _ (sortByCmp_trans i _) (sortByCmp_total i _) _,
          hhead, ?_⟩
        · rw [hhead]
          calc ((List.take n.toNat (isortLe (sortByCmp i (sb.direction = "asc")) groups)).length : Int)
              ≤ (n.toNat : Int) := by
                exact_mod_cast Nat.le_of_eq (List.length_take _ _) |>.trans (Nat.min_le_left _ _)
            _ = n := Int.toNat_of_nonneg hnn
        · rw [hhead]
          exact List.Pairwise.sublist (List.take_sublist _ _)
            (isortLe_pairwise _ (sortByCmp_trans i _) (sortByCmp_total i _) _)

def c2_df : List NRow :=
  [{ campaign_name := .str "A", revenue := 1 },
   { campaign_name := .str "B", revenue := 2 }]

def c2_plan_neg : QueryPlan :=
  { intent := "top_n", metrics := ["revenue"], groupby := ["campaign_name"],
    top_n := some (-1), sort_by := some { field := "revenue" } }

/-- Claim C2 counterexample: a top-n plan with non-empty groupby and both
`top_n` and `sort_by` set, but `top_n = -1`: `head(-1)` keeps all but the
last row, so the engine returns one row — not "at most top_n rows"
(`1 ≤ -1` is false). -/
theorem top_n_negative_head_violation :
    run_top_n c2_df c2_plan_neg = .ok [([Value.str "B"], [2])] ∧
    c2_plan_neg.top_n = some (-1) ∧
    ¬ ((([([Value.str "B"], [(2 : ℚ)])] : List (List Value × List ℚ)).length : Int) ≤ -1) :=
  ⟨by with_unfolding_all decide, rfl, by decide⟩

def c2_plan : QueryPlan :=
  { intent := "top_n", metrics := ["revenue"], groupby := ["campaign_name"],
    top_n := some 2, sort_by := some { field := "revenue", direction := "desc" } }

theorem top_n_sorted_and_truncated_witness :
    c2_plan.top_n = some 2 ∧ (0 : Int) ≤ 2 ∧
    c2_plan.sort_by = some { field := "revenue", direction := "desc" } ∧
    run_top_n c2_df c2_plan = .ok [([Value.str "B"], [2]), ([Value.str "A"], [1])] ∧
    TopNContract c2_df c2_plan 2 { field := "revenue", direction := "desc" }
      [([Value.str "B"], [2]), ([Value.str "A"], [1])] :=
  ⟨rfl, by decide, rfl, by with_unfolding_all decide,
   top_n_sorted_and_truncated c2_df c2_plan 2 { field := "revenue", direction := "desc" }
     [([Value.str "B"], [2]), ([Value.str "A"], [1])]
     rfl (by decide) rfl (by with_unfolding_all decide)⟩

/-! ## Claim C9 -/

theorem keySortCmp_trans (idxs : List Nat) : ∀ a b c,
    keySortCmp idxs a b = true → keySortCmp idxs b c = true →
    keySortCmp idxs a c = true :=
  fun _ _ _ h1 h2 => lexLe_trans Value.le valueLe_trans _ _ _ h1 h2

theorem keySortCmp_total (idxs : List Nat) : ∀ a b,
    keySortCmp idxs a b = true ∨ keySortCmp idxs b a = true :=
  fun _ _ => lexLe_total Value.le valueLe_total _ _

theorem groupAgg_ok_inv {df : List NRow} {cols metrics : List String}
    {res : List (List Value × List ℚ)}
    (h : groupAgg df cols metrics = .ok res) : res = gaRows df cols metrics := by
  unfold groupAgg at h
  by_cases h1 : (!(cols.all colExists)) = true
  · rw [if_pos h1] at h; cases h
  · rw [if_neg h1] at h
    by_cases h2 : (!((dedupKeep metrics).all validMetricName)) = true
    · rw [if_pos h2] at h; cases h
    · rw [if_neg h2] at h
      injection h with h
      exact h.symm

/-- The trend output contract: with the effective grouping (defaulted to
`[year, month]` when the plan leaves groupby empty) and effective metrics
(defaulted to `[revenue, cost]`), the output is a permutation of the
grouped sums, sorted ascending by the `year` and `month` key components
when both are in the grouping and by all grouping columns in declared
order otherwise. -/
def TrendContract (df : List NRow) (plan : QueryPlan)
    (out : List (List Value × List ℚ)) : Prop :=
  let group := if plan.groupby.isEmpty then ["year", "month"] else plan.groupby
  let metrics := if plan.metrics.isEmpty then ["revenue", "cost"] else plan.metrics
  groupAgg df group metrics = .ok (gaRows df group metrics) ∧
  List.Perm out (gaRows df group metrics) ∧
  ((group.contains "year" && group.contains "month") = true →
    List.Pairwise (fun a b => keySortCmp
      [(group.findIdx? (fun c => c = "year")).getD 0,
       (group.findIdx? (fun c => c = "month")).getD 0] a b = true) out) ∧
  ((group.contains "year" && group.contains "month") = false →
    List.Pairwise (fun a b => keySortCmp (List.range group.length) a b = true) out)

/-- Claim C9: a trend plan defaults an empty groupby to `[year, month]` and
empty metrics to `[revenue, cost]`, groups and sums, and sorts the result
ascending by `(year, month)` when both are in the effective grouping,
otherwise by the grouping columns in declared order. -/
theorem trend_defaults_and_ordering (df : List NRow) (plan : QueryPlan)
    (out : List (List Value × List ℚ)) (hok : run_trend df plan = .ok out) :
    TrendContract df plan out := by
  unfold run_trend at hok
  dsimp only at hok
  cases hga : groupAgg df (if plan.groupby.isEmpty then ["year", "month"] else plan.groupby)
      (if plan.metrics.isEmpty then ["revenue", "cost"] else plan.metrics) with
  | error e => rw [hga] at hok; cases hok
  | ok res =>
    have hres := groupAgg_ok_inv hga
    subst hres
    rw [hga] at hok
    dsimp only at hok
    by_cases hym : ((if plan.groupby.isEmpty then ["year", "month"] else plan.groupby).contains "year" &&
        (if plan.groupby.isEmpty then ["year", "month"] else plan.groupby).contains "month") = true
    · rw [if_pos hym] at hok
      injection hok with hout
      refine ⟨hga, ?_, ?_, ?_⟩
      · rw [← hout]; exact isortLe_perm _ _
      · intro _
        rw [← hout]
        exact isortLe_pairwise _ (keySortCmp_trans _) (keySortCmp_total _) _
      · intro habs
        rw [hym] at habs
        cases habs
    · rw [if_neg hym] at hok
      injection hok with hout
      refine ⟨hga, ?_, ?_, ?_⟩
      · rw [← hout]; exact isortLe_perm _ _
      · intro habs
        rw [habs] at hym
        exact absurd rfl hym
      · intro _
        rw [← hout]
        exact isortLe_pairwise _ (keySortCmp_trans _) (keySortCmp_total _) _

def c9_df : List NRow :=
  [{ year := 2023, month := 2, revenue := 5, cost := 1 },
   { year := 2022, month := 7, revenue := 3, cost := 2 },
   { year := 2023, month := 1, revenue := 4, cost := 1 }]

def c9_plan : QueryPlan := { intent := "trend" }

def c9_out : List (List Value × List ℚ) :=
  [([Value.int 2022, Value.int 7], [3, 2]),
   ([Value.int 2023, Value.int 1], [4, 1]),
   ([Value.int 2023, Value.int 2], [5, 1])]

theorem trend_defaults_and_ordering_witness :
    c9_plan.groupby = [] ∧ c9_plan.metrics = [] ∧
    run_trend c9_df c9_plan = .ok c9_out ∧
    TrendContract c9_df c9_plan c9_out :=
  ⟨rfl, rfl, by with_unfolding_all decide,
   trend_defaults_and_ordering c9_df c9_plan c9_out (by with_unfolding_all decide)⟩
